import Mathlib

/-
Shallow embedding of the single-lobby realtime chat server
(server sources: the socket event handlers for session:start,
message:send and disconnect, the in-memory presence map and rate
limiter, and the deterministic experiment-group assignment), together
with the client-side assignment helper.  Theorems at the end settle
the specification claims against these definitions.
-/

namespace VNChat

/-- The two experiment groups of the deterministic assignment. -/
inductive Assignment where
  | CONTROL
  | TREATMENT
deriving DecidableEq, Repr

/-! ### Byte-level string encodings

The server hashes the identifier with node's md5 (which consumes the
UTF-8 bytes of the string); the client hash consumes UTF-16 code units
(charCodeAt).  Both encodings are spelled out so the hash functions are
genuine functions of the identifier's bytes. -/

/-- UTF-8 encoding of one code point as byte values. -/
def utf8Bytes (c : Char) : List Nat :=
  let n := c.toNat
  if n < 128 then [n]
  else if n < 2048 then [192 + n / 64, 128 + n % 64]
  else if n < 65536 then [224 + n / 4096, 128 + (n / 64) % 64, 128 + n % 64]
  else [240 + n / 262144, 128 + (n / 4096) % 64, 128 + (n / 64) % 64, 128 + n % 64]

/-- UTF-8 bytes of a string. -/
def strBytes (s : String) : List Nat :=
  (s.data.map utf8Bytes).flatten

/-- UTF-16 code units of one code point (charCodeAt order). -/
def utf16Units (c : Char) : List Nat :=
  let n := c.toNat
  if n < 65536 then [n]
  else [55296 + (n - 65536) / 1024, 56320 + (n - 65536) % 1024]

/-- UTF-16 code units of a string. -/
def strUnits (s : String) : List Nat :=
  (s.data.map utf16Units).flatten

/-! ### MD5 (RFC 1321), used by the server-side getAssignment -/

/-- 2^32, the modulus of all md5 word arithmetic. -/
def M32 : Nat := 4294967296

/-- Left rotation of a 32-bit word. -/
def rotl32 (x s : Nat) : Nat :=
  ((x <<< s) % M32) ||| (x >>> (32 - s))

/-- The 64 md5 round constants (floor of abs(sin(i+1)) * 2^32). -/
def md5K : List Nat :=
  [3614090360, 3905402710, 606105819, 3250441966,
   4118548399, 1200080426, 2821735955, 4249261313,
   1770035416, 2336552879, 4294925233, 2304563134,
   1804603682, 4254626195, 2792965006, 1236535329,
   4129170786, 3225465664, 643717713, 3921069994,
   3593408605, 38016083, 3634488961, 3889429448,
   568446438, 3275163606, 4107603335, 1163531501,
   2850285829, 4243563512, 1735328473, 2368359562,
   4294588738, 2272392833, 1839030562, 4259657740,
   2763975236, 1272893353, 4139469664, 3200236656,
   681279174, 3936430074, 3572445317, 76029189,
   3654602809, 3873151461, 530742520, 3299628645,
   4096336452, 1126891415, 2878612391, 4237533241,
   1700485571, 2399980690, 4293915773, 2240044497,
   1873313359, 4264355552, 2734768916, 1309151649,
   4149444226, 3174756917, 718787259, 3951481745]

/-- The 64 md5 per-round left-rotation amounts. -/
def md5S : List Nat :=
  [7, 12, 17, 22, 7, 12, 17, 22, 7, 12, 17, 22, 7, 12, 17, 22,
   5, 9, 14, 20, 5, 9, 14, 20, 5, 9, 14, 20, 5, 9, 14, 20,
   4, 11, 16, 23, 4, 11, 16, 23, 4, 11, 16, 23, 4, 11, 16, 23,
   6, 10, 15, 21, 6, 10, 15, 21, 6, 10, 15, 21, 6, 10, 15, 21]

/-- md5 padding: append 0x80, zero bytes to 56 mod 64, then the
bit length as a 64-bit little-endian quantity. -/
def md5Pad (msg : List Nat) : List Nat :=
  let bitLen := msg.length * 8
  msg ++ [128] ++ List.replicate ((119 - msg.length % 64) % 64) 0
      ++ (List.range 8).map (fun i => (bitLen >>> (8 * i)) % 256)

/-- Little-endian 32-bit word starting at byte offset j. -/
def leWord (bytes : List Nat) (j : Nat) : Nat :=
  bytes.getD j 0 + 256 * bytes.getD (j + 1) 0
    + 65536 * bytes.getD (j + 2) 0 + 16777216 * bytes.getD (j + 3) 0

/-- One md5 round on the working state (a, b, c, d). -/
def md5Round (Mw : List Nat) (st : Nat × Nat × Nat × Nat) (i : Nat) :
    Nat × Nat × Nat × Nat :=
  let (a, b, c, d) := st
  let notb := b ^^^ 4294967295
  let notd := d ^^^ 4294967295
  let f :=
    if i < 16 then (b &&& c) ||| (notb &&& d)
    else if i < 32 then (d &&& b) ||| (notd &&& c)
    else if i < 48 then b ^^^ c ^^^ d
    else c ^^^ (b ||| notd)
  let g :=
    if i < 16 then i
    else if i < 32 then (5 * i + 1) % 16
    else if i < 48 then (3 * i + 5) % 16
    else (7 * i) % 16
  let tmp := (f + a + md5K.getD i 0 + Mw.getD g 0) % M32
  (d, (b + rotl32 tmp (md5S.getD i 0)) % M32, b, c)

/-- Process one 64-byte chunk. -/
def md5Chunk (st : Nat × Nat × Nat × Nat) (chunk : List Nat) :
    Nat × Nat × Nat × Nat :=
  let Mw := (List.range 16).map (fun j => leWord chunk (4 * j))
  let r := (List.range 64).foldl (md5Round Mw) st
  ((st.1 + r.1) % M32, (st.2.1 + r.2.1) % M32,
   (st.2.2.1 + r.2.2.1) % M32, (st.2.2.2 + r.2.2.2) % M32)

/-- md5 initial state A0, B0, C0, D0. -/
def md5Init : Nat × Nat × Nat × Nat :=
  (1732584193, 4023233417, 2562383102, 271733878)

/-- Run md5 over all 64-byte chunks of an already padded message. -/
def md5Chunks (padded : List Nat) : Nat × Nat × Nat × Nat :=
  (List.range (padded.length / 64)).foldl
    (fun st i => md5Chunk st ((padded.drop (64 * i)).take 64)) md5Init

/-- Lowercase hex digit for a value below 16. -/
def hexDigit (n : Nat) : Char :=
  if n < 10 then Char.ofNat (48 + n) else Char.ofNat (87 + n)

/-- Two lowercase hex characters of one byte. -/
def byteHex (b : Nat) : List Char :=
  [hexDigit (b / 16), hexDigit (b % 16)]

/-- Little-endian byte serialization of a 32-bit word. -/
def wordLEBytes (w : Nat) : List Nat :=
  [w % 256, (w >>> 8) % 256, (w >>> 16) % 256, (w >>> 24) % 256]

/-- The full md5 hex digest of a string (what
crypto.createHash md5 digest hex returns). -/
def md5Hex (s : String) : String :=
  let st := md5Chunks (md5Pad (strBytes s))
  ⟨((wordLEBytes st.1 ++ wordLEBytes st.2.1 ++ wordLEBytes st.2.2.1
      ++ wordLEBytes st.2.2.2).map byteHex).flatten⟩

/-- Value of one hex character (parseInt with radix 16 on one char). -/
def hexCharVal (c : Char) : Nat :=
  if 48 ≤ c.toNat ∧ c.toNat ≤ 57 then c.toNat - 48
  else if 97 ≤ c.toNat ∧ c.toNat ≤ 102 then c.toNat - 87
  else if 65 ≤ c.toNat ∧ c.toNat ≤ 70 then c.toNat - 55
  else 0

/-- Server-side getAssignment: md5 the identifier, take the first hex
character, parse it, and map even to CONTROL, odd to TREATMENT. -/
def getAssignment (userId : String) : Assignment :=
  let hash := md5Hex userId
  let firstChar := hexCharVal (hash.data.getD 0 '0')
  if firstChar % 2 == 0 then Assignment.CONTROL else Assignment.TREATMENT

/-! ### Client-side getAssignment (ab-testing.ts) -/

/-- Wrap an integer to the signed 32-bit range (the js bitwise-or-zero
coercion). -/
def toInt32 (n : Int) : Int :=
  (n + 2147483648) % 4294967296 - 2147483648

/-- The client hash loop: hash = ((hash << 5) - hash) + charCodeAt(i),
wrapped to 32 bits at the shift and after each step. -/
def jsStringHash (s : String) : Int :=
  (strUnits s).foldl (fun h c => toInt32 (toInt32 (h * 32) - h + (c : Int))) 0

/-- Client-side getAssignment: consult the stored local override first;
an empty identifier yields CONTROL; otherwise reduce the 32-bit string
hash modulo 2 (odd maps to TREATMENT). -/
def clientGetAssignment (overrideStored : Option String) (userId : String) :
    Assignment :=
  match overrideStored with
  | some ov =>
      if ov == "CONTROL" then Assignment.CONTROL
      else if ov == "TREATMENT" then Assignment.TREATMENT
      else if userId == "" then Assignment.CONTROL
      else if (jsStringHash userId).natAbs % 2 == 1 then Assignment.TREATMENT
      else Assignment.CONTROL
  | none =>
      if userId == "" then Assignment.CONTROL
      else if (jsStringHash userId).natAbs % 2 == 1 then Assignment.TREATMENT
      else Assignment.CONTROL

/-! ### Zod payload schemas

SessionStartSchema requires a uuid-shaped userId and a nickname whose
min(1) and max(20) checks run on the RAW string; the trim transform
runs after the checks, because zod applies chain items in order.
MessageSendSchema requires a uuid-shaped userId and text with min(1)
on the raw string, again trimmed only afterwards. -/

/-- One hexadecimal character (either case). -/
def isHexChar (c : Char) : Bool :=
  (48 ≤ c.toNat && c.toNat ≤ 57) || (97 ≤ c.toNat && c.toNat ≤ 102)
    || (65 ≤ c.toNat && c.toNat ≤ 70)

/-- The zod uuid shape: 36 characters, hyphens at offsets 8, 13, 18
and 23, hex everywhere else. -/
def isUuidFormat (s : String) : Bool :=
  let cs := s.data
  cs.length == 36 &&
  (List.range 36).all (fun i =>
    if i == 8 || i == 13 || i == 18 || i == 23 then cs.getD i ' ' == '-'
    else isHexChar (cs.getD i ' '))

/-- Whitespace for the js string trim. -/
def isJsWs (c : Char) : Bool :=
  c.toNat == 32 || (9 ≤ c.toNat && c.toNat ≤ 13)

/-- js String.prototype.trim on the character data. -/
def jsTrim (s : String) : String :=
  ⟨((s.data.dropWhile isJsWs).reverse.dropWhile isJsWs).reverse⟩

/-- Parsed session:start payload. -/
structure SessionStartData where
  userId : String
  nickname : String
deriving DecidableEq, Repr

/-- SessionStartSchema.safeParse: the length window 1..20 is checked on
the raw nickname, and only then is the nickname trimmed. -/
def sessionStartParse (userId nickname : String) : Option SessionStartData :=
  if isUuidFormat userId ∧ 1 ≤ nickname.data.length ∧ nickname.data.length ≤ 20
  then some ⟨userId, jsTrim nickname⟩
  else none

/-- Parsed message:send payload. -/
structure MessageSendData where
  userId : String
  text : String
deriving DecidableEq, Repr

/-- MessageSendSchema.safeParse: min(1) is checked on the raw text, and
only then is the text trimmed. -/
def messageSendParse (userId text : String) : Option MessageSendData :=
  if isUuidFormat userId ∧ 1 ≤ text.data.length
  then some ⟨userId, jsTrim text⟩
  else none

/-! ### Persistent rows and in-memory state -/

/-- A row of the User table. -/
structure UserRow where
  id : String
  nickname : String
  assignment : Assignment
  lastSeenAt : Option Nat
deriving DecidableEq, Repr

/-- A row of the Session table (durationSec is a column of the schema;
nothing in the handlers ever writes it). -/
structure SessionRow where
  id : Nat
  userId : String
  startedAt : Nat
  endedAt : Option Nat
  durationSec : Option Nat
deriving DecidableEq, Repr

/-- A row of the Message table. -/
structure MessageRow where
  id : String
  userId : String
  nicknameSnapshot : String
  text : String
  createdAt : Nat
  mood : String
  intensity : Rat
deriving DecidableEq, Repr

/-- InferenceJob status values. -/
inductive JobStatus where
  | PENDING
  | PROCESSING
  | DONE
  | FAILED
deriving DecidableEq, Repr

/-- A row of the InferenceJob table. -/
structure InferenceJobRow where
  id : Nat
  messageId : String
  status : JobStatus
  attempts : Nat
  lastError : Option String
deriving DecidableEq, Repr

/-- The value stored per socket in the connectedClients map. -/
structure ClientInfo where
  userId : String
  nickname : String
  assignment : Assignment
  sessionId : Nat
deriving DecidableEq, Repr

/-- The value stored per user in the rateLimits map. -/
structure RateEntry where
  count : Nat
  startTime : Nat
deriving DecidableEq, Repr

/-- Durable tables plus the process-wide in-memory maps.  Maps are
association lists in insertion order, mirroring js Map semantics. -/
structure ServerState where
  users : List UserRow
  sessions : List SessionRow
  nextSessionId : Nat
  messages : List MessageRow
  jobs : List InferenceJobRow
  connectedClients : List (String × ClientInfo)
  rateLimits : List (String × RateEntry)
deriving DecidableEq, Repr

/-- The state at process start: empty tables, empty maps, session ids
starting at 1 (sqlite autoincrement). -/
def initialState : ServerState :=
  ⟨[], [], 1, [], [], [], []⟩

/-- js Map.set: update in place when the key exists (keeping its
position), append otherwise. -/
def mapSet {A : Type} (m : List (String × A)) (k : String) (v : A) :
    List (String × A) :=
  if m.any (fun p => p.1 == k) then
    m.map (fun p => if p.1 == k then (k, v) else p)
  else m ++ [(k, v)]

/-- js Map.get. -/
def mapGet {A : Type} (m : List (String × A)) (k : String) : Option A :=
  (m.find? (fun p => p.1 == k)).map (fun p => p.2)

/-- js Map.delete. -/
def mapDelete {A : Type} (m : List (String × A)) (k : String) :
    List (String × A) :=
  m.filter (fun p => p.1 != k)

/-- An entry of the deduplicated online-users list. -/
structure OnlineUser where
  userId : String
  nickname : String
  assignment : Assignment
deriving DecidableEq, Repr

/-- One step of the uniqueUsersMap construction: a js Map keyed by
userId, so the last connection's value wins without changing the
first-insertion position. -/
def setOnline (m : List OnlineUser) (v : OnlineUser) : List OnlineUser :=
  if m.any (fun x => x.userId == v.userId) then
    m.map (fun x => if x.userId == v.userId then v else x)
  else m ++ [v]

/-- getOnlineUsers: fold every connected client into a map keyed by
userId and return its values. -/
def getOnlineUsers (clients : List (String × ClientInfo)) : List OnlineUser :=
  clients.foldl (fun acc p => setOnline acc ⟨p.2.userId, p.2.nickname, p.2.assignment⟩) []

/-! ### Outbound events -/

/-- The message DTO broadcast with message:new and replayed in the ack. -/
structure MessageDTO where
  id : String
  userId : String
  nicknameSnapshot : String
  text : String
  createdAt : Nat
  mood : String
  intensity : Rat
deriving DecidableEq, Repr

/-- DTO of a stored message row. -/
def toDTO (m : MessageRow) : MessageDTO :=
  ⟨m.id, m.userId, m.nicknameSnapshot, m.text, m.createdAt, m.mood, m.intensity⟩

/-- Where an outbound event goes. -/
inductive EmitTarget where
  | toSocket (socketId : String)
  | broadcast
deriving DecidableEq, Repr

/-- The outbound event vocabulary of the server handlers. -/
inductive ServerEmit where
  | sessionAck (userId nickname : String) (assignment : Assignment)
      (onlineUsers : List OnlineUser) (lastMessages : List MessageDTO)
  | presenceUpdate (onlineUsers : List OnlineUser)
  | messageNew (message : MessageDTO)
  | errorInvalidPayload (message : String)
  | errorRateLimited (message : String)
deriving DecidableEq, Repr

/-- Result of one handler invocation. -/
structure HandlerResult where
  state : ServerState
  emits : List (EmitTarget × ServerEmit)
deriving DecidableEq, Repr

/-! ### The session:start handler -/

/-- prisma user.upsert: update nickname and lastSeenAt when the row
exists (assignment untouched), create it otherwise. -/
def upsertUser (users : List UserRow) (userId nickname : String)
    (assignment : Assignment) (now : Nat) : List UserRow :=
  if users.any (fun u => u.id == userId) then
    users.map (fun u =>
      if u.id == userId then { u with nickname := nickname, lastSeenAt := some now } else u)
  else users ++ [⟨userId, nickname, assignment, some now⟩]

/-- prisma session.findFirst on userId with endedAt null. -/
def findOpenSession (sessions : List SessionRow) (userId : String) :
    Option SessionRow :=
  sessions.find? (fun s => s.userId == userId && s.endedAt == none)

/-- The bounded replay window: last 50 messages, oldest first. -/
def lastMessagesOf (msgs : List MessageRow) : List MessageDTO :=
  ((msgs.reverse.take 50).reverse).map toDTO

/-- The session:start handler: validate, upsert the user, reuse the
open session or create one, register the connection, ack with history
and online users, broadcast presence. -/
def sessionStart (st : ServerState) (socketId : String)
    (payloadUserId payloadNickname : String) (now : Nat) : HandlerResult :=
  match sessionStartParse payloadUserId payloadNickname with
  | none =>
      ⟨st, [(.toSocket socketId, .errorInvalidPayload "Invalid payload for session:start")]⟩
  | some d =>
      let assignment := getAssignment d.userId
      let users := upsertUser st.users d.userId d.nickname assignment now
      match findOpenSession st.sessions d.userId with
      | some s =>
          let clients := mapSet st.connectedClients socketId
            ⟨d.userId, d.nickname, assignment, s.id⟩
          let onlineUsers := getOnlineUsers clients
          ⟨{ st with users := users, connectedClients := clients },
           [(.toSocket socketId,
              .sessionAck d.userId d.nickname assignment onlineUsers (lastMessagesOf st.messages)),
            (.broadcast, .presenceUpdate onlineUsers)]⟩
      | none =>
          let s : SessionRow := ⟨st.nextSessionId, d.userId, now, none, none⟩
          let clients := mapSet st.connectedClients socketId
            ⟨d.userId, d.nickname, assignment, s.id⟩
          let onlineUsers := getOnlineUsers clients
          ⟨{ st with
              users := users
              sessions := st.sessions ++ [s]
              nextSessionId := st.nextSessionId + 1
              connectedClients := clients },
           [(.toSocket socketId,
              .sessionAck d.userId d.nickname assignment onlineUsers (lastMessagesOf st.messages)),
            (.broadcast, .presenceUpdate onlineUsers)]⟩

/-! ### The message:send handler -/

/-- Messages allowed per window. -/
def RATE_LIMIT_MAX_MESSAGES : Nat := 5

/-- The rate window in milliseconds. -/
def RATE_LIMIT_WINDOW_MS : Nat := 5000

/-- The rate-limit check of the handler: reset the window entry when
the window has strictly elapsed, reject at the cap (leaving the map
untouched), otherwise increment and store. -/
def rateAdmit (rl : List (String × RateEntry)) (userId : String) (now : Nat) :
    Bool × List (String × RateEntry) :=
  let limitData : RateEntry :=
    match mapGet rl userId with
    | some e => if now - e.startTime > RATE_LIMIT_WINDOW_MS then ⟨0, now⟩ else e
    | none => ⟨0, now⟩
  if RATE_LIMIT_MAX_MESSAGES ≤ limitData.count then (false, rl)
  else (true, mapSet rl userId ⟨limitData.count + 1, limitData.startTime⟩)

/-- js String.prototype.toUpperCase (ascii range). -/
def jsToUpper (s : String) : String :=
  ⟨s.data.map Char.toUpper⟩

/-- The message:send handler.  The classifier HTTP call is made inline:
classifierResult is some (mood, intensity) when the call returned ok
and parsed, none when it failed or was non-ok; on none the mood and
intensity keep the neutral defaults.  The message row is persisted and
broadcast; no InferenceJob row is created (the handler defers job
creation to a later phase). -/
def messageSend (st : ServerState) (socketId : String)
    (payloadUserId payloadText : String) (now : Nat) (messageId : String)
    (classifierResult : Option (String × Rat)) : HandlerResult :=
  match mapGet st.connectedClients socketId with
  | none => ⟨st, []⟩
  | some clientData =>
      match messageSendParse payloadUserId payloadText with
      | none => ⟨st, [(.toSocket socketId, .errorInvalidPayload "Invalid payload")]⟩
      | some d =>
          if d.userId != clientData.userId then
            ⟨st, [(.toSocket socketId, .errorInvalidPayload "User ID mismatch")]⟩
          else
            let r := rateAdmit st.rateLimits clientData.userId now
            if r.1 then
              let mood := match classifierResult with
                | some mi => jsToUpper mi.1
                | none => "NEUTRAL"
              let intensity : Rat := match classifierResult with
                | some mi => mi.2
                | none => 0
              let savedMessage : MessageRow :=
                ⟨messageId, clientData.userId, clientData.nickname, d.text, now, mood, intensity⟩
              let users := st.users.map (fun u =>
                if u.id == clientData.userId then { u with lastSeenAt := some now } else u)
              ⟨{ st with
                  messages := st.messages ++ [savedMessage]
                  users := users
                  rateLimits := r.2 },
               [(.broadcast, .messageNew (toDTO savedMessage))]⟩
            else
              ⟨st, [(.toSocket socketId, .errorRateLimited "Too many messages. Please wait.")]⟩

/-! ### The disconnect handler -/

/-- The disconnect handler: drop the socket from the map; when the user
has no remaining connections (and a truthy sessionId), set the open
session's endedAt and stamp the user's lastSeenAt; broadcast presence.
The durationSec column is not written. -/
def disconnect (st : ServerState) (socketId : String) (now : Nat) : HandlerResult :=
  match mapGet st.connectedClients socketId with
  | none => ⟨st, []⟩
  | some clientData =>
      let clients := mapDelete st.connectedClients socketId
      let remaining := (clients.filter (fun p => p.2.userId == clientData.userId)).length
      if remaining == 0 && clientData.sessionId != 0 then
        let sessions := st.sessions.map (fun s =>
          if s.id == clientData.sessionId then { s with endedAt := some now } else s)
        let users := st.users.map (fun u =>
          if u.id == clientData.userId then { u with lastSeenAt := some now } else u)
        ⟨{ st with connectedClients := clients, sessions := sessions, users := users },
         [(.broadcast, .presenceUpdate (getOnlineUsers clients))]⟩
      else
        ⟨{ st with connectedClients := clients },
         [(.broadcast, .presenceUpdate (getOnlineUsers clients))]⟩

/-! ### Classification job state machine

Modelled from the spec: the classification job queue worker (the
recurring claim step, the bounded-timeout execution, and the
retry/terminal-failure handling) is not among the server sources; only
the InferenceJob table declaration and the deferring comment in the
message handler are.  The per-job transition function below follows
the spec's state machine: claim flips PENDING to PROCESSING and
increments attempts; success sets DONE; failure reverts to PENDING
while attempts < 3 and otherwise sets a terminal FAILED recording the
last error. -/
inductive JobEvent where
  | claim
  | succeed
  | fail (err : String)
deriving DecidableEq, Repr

/-- Modelled from the spec: one worker transition on a job row (the
drain loop itself is absent from the sources). -/
def jobStep (j : InferenceJobRow) (e : JobEvent) : Option InferenceJobRow :=
  match e with
  | .claim =>
      if j.status = .PENDING then
        some { j with status := .PROCESSING, attempts := j.attempts + 1 }
      else none
  | .succeed =>
      if j.status = .PROCESSING then some { j with status := .DONE } else none
  | .fail err =>
      if j.status = .PROCESSING then
        if j.attempts < 3 then some { j with status := .PENDING, lastError := some err }
        else some { j with status := .FAILED, lastError := some err }
      else none

/-- A job row reachable from another by worker transitions. -/
def JobReaches (j j' : InferenceJobRow) : Prop :=
  Relation.ReflTransGen (fun a b => ∃ e, jobStep a e = some b) j j'

/-! ### Concrete scenario states -/

/-- A uuid-shaped identifier used by the concrete scenarios. -/
def uidA : String := "00000000-0000-0000-0000-000000000000"

/-- State after user uidA joined on socket sockA at time 1000. -/
def stJoined : ServerState :=
  (sessionStart initialState "sockA" uidA "Alice" 1000).state

/-- State after k further admitted sends from sockA at times 1000,
1001, ... within one rate window. -/
def stSends (k : Nat) : ServerState :=
  (List.range k).foldl
    (fun st i => (messageSend st "sockA" uidA "hi" (1000 + i) (toString i) none).state)
    stJoined

/-- Number of open (endedAt null) sessions of one user. -/
def openCount (sessions : List SessionRow) (u : String) : Nat :=
  (sessions.filter (fun s => s.userId == u && s.endedAt == none)).length

/-- The rational 4/5, the 0.8 intensity of the classifier scenario,
written as a reduced fraction literal. -/
def ratFourFifths : Rat := ⟨4, 5, by decide, by decide⟩

/-- A presence map with two live connections of the same user. -/
def demoClients : List (String × ClientInfo) :=
  [("sockA", ⟨uidA, "Alice", Assignment.TREATMENT, 1⟩),
   ("sockB", ⟨uidA, "Alice", Assignment.TREATMENT, 1⟩)]

/-! ## Theorems -/

set_option maxRecDepth 40000

/-! ### Helper lemmas -/

/-- Every successful worker transition is one of the allowed forward
transitions of the job state machine. -/
theorem jobStep_shape {j j' : InferenceJobRow} {e : JobEvent}
    (h : jobStep j e = some j') :
    (j.status = .PENDING ∧ j'.status = .PROCESSING ∧ j'.attempts = j.attempts + 1) ∨
    (j.status = .PROCESSING ∧ j'.status = .DONE ∧ j'.attempts = j.attempts) ∨
    (j.status = .PROCESSING ∧ j'.status = .PENDING ∧ j.attempts < 3
      ∧ j'.attempts = j.attempts) ∨
    (j.status = .PROCESSING ∧ j'.status = .FAILED ∧ 3 ≤ j.attempts
      ∧ j'.attempts = j.attempts ∧ j'.lastError ≠ none) := by
  cases e with
  | claim =>
      simp only [jobStep] at h
      by_cases hs : j.status = JobStatus.PENDING
      · rw [if_pos hs] at h
        injection h with h2
        subst h2
        exact Or.inl ⟨hs, rfl, rfl⟩
      · rw [if_neg hs] at h
        exact Option.noConfusion h
  | succeed =>
      simp only [jobStep] at h
      by_cases hs : j.status = JobStatus.PROCESSING
      · rw [if_pos hs] at h
        injection h with h2
        subst h2
        exact Or.inr (Or.inl ⟨hs, rfl, rfl⟩)
      · rw [if_neg hs] at h
        exact Option.noConfusion h
  | fail err =>
      simp only [jobStep] at h
      by_cases hs : j.status = JobStatus.PROCESSING
      · rw [if_pos hs] at h
        by_cases ha : j.attempts < 3
        · rw [if_pos ha] at h
          injection h with h2
          subst h2
          exact Or.inr (Or.inr (Or.inl ⟨hs, rfl, ha, rfl⟩))
        · rw [if_neg ha] at h
          injection h with h2
          subst h2
          exact Or.inr (Or.inr (Or.inr ⟨hs, rfl, Nat.le_of_not_lt ha, rfl, by simp⟩))
      · rw [if_neg hs] at h
        exact Option.noConfusion h

/-- A worker transition never decreases the attempt counter. -/
theorem jobStep_attempts_le {j j' : InferenceJobRow} {e : JobEvent}
    (h : jobStep j e = some j') : j.attempts ≤ j'.attempts := by
  rcases jobStep_shape h with ⟨_, _, h3⟩ | ⟨_, _, h3⟩ | ⟨_, _, _, h3⟩ | ⟨_, _, _, h3, _⟩ <;>
    omega

/-- DONE and FAILED are absorbing: no worker transition applies. -/
theorem jobStep_terminal {j : InferenceJobRow} (e : JobEvent)
    (h : j.status = .DONE ∨ j.status = .FAILED) : jobStep j e = none := by
  cases e <;> rcases h with h | h <;> simp [jobStep, h]

/-- find? of the key predicate over an updated-in-place map hits the
updated entry. -/
theorem find?_mapSet_update {A : Type} {m : List (String × A)} {k : String}
    (v : A) (hc : m.any (fun p => p.1 == k) = true) :
    ((m.map (fun p => if p.1 == k then (k, v) else p)).find? (fun p => p.1 == k))
      = some (k, v) := by
  induction m with
  | nil => simp at hc
  | cons a t ih =>
      by_cases ha : a.1 == k
      · simp [ha, List.find?]
      · have ht : t.any (fun p => p.1 == k) = true := by
          simp only [List.any_cons, ha, Bool.false_or] at hc
          exact hc
        simp only [List.map_cons, if_neg (by simp [ha] : ¬(a.1 == k) = true)]
        rw [List.find?_cons_of_neg _ (by simp [ha])]
        exact ih ht

/-- mapSet followed by mapGet of the same key returns the stored
value. -/
theorem mapGet_mapSet_self {A : Type} (m : List (String × A)) (k : String)
    (v : A) : mapGet (mapSet m k v) k = some v := by
  unfold mapSet mapGet
  by_cases hc : m.any (fun p => p.1 == k)
  · rw [if_pos hc, find?_mapSet_update v hc]
    rfl
  · rw [if_neg hc]
    have hnone : m.find? (fun p => p.1 == k) = none := by
      rw [List.find?_eq_none]
      intro x hx
      rw [Bool.not_eq_true, List.any_eq_false] at hc
      simpa using hc x hx
    rw [List.find?_append, hnone, Option.none_or]
    simp [List.find?]

/-- Updating an entry of the uniqueUsersMap keeps the key list. -/
theorem keys_setOnline_update (m : List OnlineUser) (v : OnlineUser) :
    ((m.map (fun x => if x.userId == v.userId then v else x)).map
        (fun x => x.userId))
      = m.map (fun x => x.userId) := by
  rw [List.map_map]
  apply List.map_congr_left
  intro x _
  by_cases hxx : x.userId == v.userId
  · simp only [Function.comp_apply, if_pos hxx]
    exact (eq_of_beq hxx).symm
  · have hne : x.userId ≠ v.userId := by simpa using hxx
    simp [Function.comp_apply, hne]

/-- Key membership after one uniqueUsersMap insertion. -/
theorem keys_setOnline_mem (m : List OnlineUser) (v : OnlineUser) (u : String) :
    u ∈ (setOnline m v).map (fun x => x.userId) ↔
      u ∈ m.map (fun x => x.userId) ∨ u = v.userId := by
  unfold setOnline
  by_cases hc : m.any (fun x => x.userId == v.userId)
  · rw [if_pos hc, keys_setOnline_update]
    constructor
    · exact Or.inl
    · rintro (h | rfl)
      · exact h
      · rcases List.any_eq_true.mp hc with ⟨x, hx, hxx⟩
        exact List.mem_map.mpr ⟨x, hx, eq_of_beq hxx⟩
  · rw [if_neg hc]
    simp [List.mem_append]

/-- One uniqueUsersMap insertion preserves key distinctness. -/
theorem keys_setOnline_nodup (m : List OnlineUser) (v : OnlineUser)
    (h : (m.map (fun x => x.userId)).Nodup) :
    ((setOnline m v).map (fun x => x.userId)).Nodup := by
  unfold setOnline
  by_cases hc : m.any (fun x => x.userId == v.userId)
  · rw [if_pos hc, keys_setOnline_update]
    exact h
  · rw [if_neg hc, List.map_append]
    rw [Bool.not_eq_true, List.any_eq_false] at hc
    rw [List.nodup_append]
    refine ⟨h, List.nodup_singleton _, ?_⟩
    intro a ha hb
    rcases List.mem_map.mp ha with ⟨x, hx, rfl⟩
    simp only [List.map_cons, List.map_nil, List.mem_singleton] at hb
    exact hc x hx (by simp [hb])

/-- Every entry after one uniqueUsersMap insertion is an old entry or
the inserted one. -/
theorem mem_setOnline {m : List OnlineUser} {v x : OnlineUser}
    (h : x ∈ setOnline m v) : x ∈ m ∨ x = v := by
  unfold setOnline at h
  by_cases hc : m.any (fun y => y.userId == v.userId)
  · rw [if_pos hc] at h
    rcases List.mem_map.mp h with ⟨y, hy, hyy⟩
    by_cases hv : y.userId == v.userId
    · rw [if_pos hv] at hyy
      exact Or.inr hyy.symm
    · rw [if_neg hv] at hyy
      exact Or.inl (hyy ▸ hy)
  · rw [if_neg hc] at h
    rcases List.mem_append.mp h with h | h
    · exact Or.inl h
    · exact Or.inr (List.mem_singleton.mp h)

/-- Keys of the uniqueUsersMap fold stay distinct. -/
theorem getOnlineUsers_fold_nodup (clients : List (String × ClientInfo)) :
    ∀ acc : List OnlineUser, (acc.map (fun x => x.userId)).Nodup →
      (((clients.foldl (fun acc p =>
          setOnline acc ⟨p.2.userId, p.2.nickname, p.2.assignment⟩) acc)).map
        (fun x => x.userId)).Nodup := by
  induction clients with
  | nil => intro acc h; exact h
  | cons c cs ih =>
      intro acc h
      exact ih _ (keys_setOnline_nodup _ _ h)

/-- Key membership of the uniqueUsersMap fold: exactly the accumulator
keys plus the folded clients' userIds. -/
theorem getOnlineUsers_fold_mem (clients : List (String × ClientInfo)) :
    ∀ (acc : List OnlineUser) (u : String),
      (u ∈ (clients.foldl (fun acc p =>
          setOnline acc ⟨p.2.userId, p.2.nickname, p.2.assignment⟩) acc).map
        (fun x => x.userId)) ↔
      u ∈ acc.map (fun x => x.userId) ∨ ∃ p ∈ clients, p.2.userId = u := by
  induction clients with
  | nil => intro acc u; simp
  | cons c cs ih =>
      intro acc u
      rw [List.foldl_cons, ih, keys_setOnline_mem]
      constructor
      · rintro ((h | rfl) | ⟨p, hp, hpu⟩)
        · exact Or.inl h
        · exact Or.inr ⟨c, List.mem_cons_self c cs, rfl⟩
        · exact Or.inr ⟨p, List.mem_cons_of_mem c hp, hpu⟩
      · rintro (h | ⟨p, hp, hpu⟩)
        · exact Or.inl (Or.inl h)
        · rcases List.mem_cons.mp hp with rfl | hp'
          · exact Or.inl (Or.inr hpu.symm)
          · exact Or.inr ⟨p, hp', hpu⟩

/-- Every entry of the uniqueUsersMap fold comes from the accumulator
or from some folded client. -/
theorem getOnlineUsers_fold_src (clients : List (String × ClientInfo)) :
    ∀ (acc : List OnlineUser) (x : OnlineUser),
      x ∈ clients.foldl (fun acc p =>
          setOnline acc ⟨p.2.userId, p.2.nickname, p.2.assignment⟩) acc →
      x ∈ acc ∨ ∃ p ∈ clients, x = ⟨p.2.userId, p.2.nickname, p.2.assignment⟩ := by
  induction clients with
  | nil => intro acc x h; exact Or.inl h
  | cons c cs ih =>
      intro acc x h
      rcases ih _ x h with h' | ⟨p, hp, hpx⟩
      · rcases mem_setOnline h' with h'' | h''
        · exact Or.inl h''
        · exact Or.inr ⟨c, List.mem_cons_self c cs, h''⟩
      · exact Or.inr ⟨p, List.mem_cons_of_mem c hp, hpx⟩

/-- In a list with distinct userIds, a present userId is matched by
exactly one entry. -/
theorem filter_userId_length_one {l : List OnlineUser} {u : String}
    (hn : (l.map (fun x => x.userId)).Nodup)
    (hm : u ∈ l.map (fun x => x.userId)) :
    (l.filter (fun x => x.userId == u)).length = 1 := by
  induction l with
  | nil => simp at hm
  | cons a t ih =>
      simp only [List.map_cons, List.nodup_cons] at hn
      by_cases ha : a.userId == u
      · have hu : a.userId = u := eq_of_beq ha
        have ht : t.filter (fun x => x.userId == u) = [] := by
          rw [List.filter_eq_nil_iff]
          intro x hx hpx
          exact hn.1 (hu ▸ (List.mem_map.mpr ⟨x, hx, eq_of_beq hpx⟩))
        simp [List.filter_cons, ha, ht]
      · have hm' : u ∈ t.map (fun x => x.userId) := by
          rw [List.map_cons] at hm
          rcases List.mem_cons.mp hm with h | h
          · exact absurd (by simp [h]) ha
          · exact h
        simp [List.filter_cons, ha, ih hn.2 hm']

/-- The md5 embedding reproduces the RFC 1321 digest of the empty
string. -/
theorem md5Hex_empty : md5Hex "" = "d41d8cd98f00b204e9800998ecf8427e" := by
  decide

/-- The md5 embedding reproduces the RFC 1321 digest of "abc". -/
theorem md5Hex_abc : md5Hex "abc" = "900150983cd24fb0d6963f7d28e17f72" := by
  decide

/-- C2, code evaluation at the failing input: user uidA holds two
connections on one session; the first disconnect leaves the session
open; the second (last) disconnect sets its end time and stamps the
user's last-active time, but the duration column stays null — the
handler never derives end minus start. -/
theorem c2_last_disconnect_never_derives_duration :
    (disconnect (sessionStart stJoined "sockB" uidA "Alice" 2000).state
        "sockA" 3000).state.sessions
      = [⟨1, uidA, 1000, none, none⟩] ∧
    (disconnect (disconnect (sessionStart stJoined "sockB" uidA "Alice" 2000).state
        "sockA" 3000).state "sockB" 4000).state.sessions
      = [⟨1, uidA, 1000, some 4000, none⟩] ∧
    (disconnect (disconnect (sessionStart stJoined "sockB" uidA "Alice" 2000).state
        "sockA" 3000).state "sockB" 4000).state.users
      = [⟨uidA, "Alice", Assignment.TREATMENT, some 4000⟩] := by
  decide

/-- C3, code evaluation at the failing input: an admitted send persists
the message but creates no InferenceJob row at all — the jobs table is
still empty after the insert. -/
theorem c3_message_persisted_without_job :
    (messageSend stJoined "sockA" uidA "hello" 1500 "msg1" none).state.messages.length = 1 ∧
    (messageSend stJoined "sockA" uidA "hello" 1500 "msg1" none).state.jobs = [] := by
  decide

/-- C5, code evaluation at the failing input: when the inline classifier
call returns (joy, 4/5), the complete emission list of the send is one
message:new broadcast already carrying mood JOY — not the neutral
default, and with no separate classification-completed notification. -/
theorem c5_broadcast_carries_classified_mood :
    (messageSend stJoined "sockA" uidA "hello" 1500 "msg1"
        (some ("joy", ratFourFifths))).emits
      = [(.broadcast, .messageNew ⟨"msg1", uidA, "Alice", "hello", 1500, "JOY", ratFourFifths⟩)] := by
  decide

/-- C6, code evaluation at the failing input: five sends in one window
are admitted; the sixth is rejected, but the rejection carries only a
fixed human-readable message — no retryAfterMs value — and leaves the
state untouched; after the window elapses a send is admitted and the
counter restarts at 1. -/
theorem c6_sixth_send_rejected_without_retry_after :
    (stSends 5).messages.length = 5 ∧
    (messageSend (stSends 5) "sockA" uidA "hi" 1005 "m6" none).emits
      = [(.toSocket "sockA", .errorRateLimited "Too many messages. Please wait.")] ∧
    (messageSend (stSends 5) "sockA" uidA "hi" 1005 "m6" none).state = stSends 5 ∧
    (messageSend (stSends 5) "sockA" uidA "hi" 7000 "m7" none).state.messages.length = 6 ∧
    mapGet (messageSend (stSends 5) "sockA" uidA "hi" 7000 "m7" none).state.rateLimits uidA
      = some ⟨1, 7000⟩ := by
  decide

/-- C7, code evaluation at the failing input: a whitespace-only nickname
and a whitespace-only message text both pass validation, because the
length checks run on the raw string and the trim transform runs after
them; the send is admitted and a message whose text trims to empty is
persisted and broadcast. -/
theorem c7_whitespace_only_payloads_admitted :
    sessionStartParse uidA " " = some ⟨uidA, ""⟩ ∧
    messageSendParse uidA " " = some ⟨uidA, ""⟩ ∧
    (messageSend stJoined "sockA" uidA " " 1500 "msg1" none).state.messages
      = [⟨"msg1", uidA, "Alice", "", 1500, "NEUTRAL", 0⟩] ∧
    (messageSend stJoined "sockA" uidA " " 1500 "msg1" none).emits
      = [(.broadcast, .messageNew ⟨"msg1", uidA, "Alice", "", 1500, "NEUTRAL", 0⟩)] := by
  decide

/-- C1: at most one open Session per user.  For any valid session:start
payload: when the user already has an open session the handler reuses
it — the session table is unchanged and the connection is registered
against that session's id; a new row is created only when no open
session exists; and the at-most-one-open-session-per-user invariant is
preserved. -/
theorem c1_at_most_one_open_session :
    ∀ (st : ServerState) (sockId pu pn : String) (now : Nat)
      (d : SessionStartData),
      sessionStartParse pu pn = some d →
      (∀ s : SessionRow, findOpenSession st.sessions d.userId = some s →
        (sessionStart st sockId pu pn now).state.sessions = st.sessions ∧
        mapGet (sessionStart st sockId pu pn now).state.connectedClients sockId
          = some ⟨d.userId, d.nickname, getAssignment d.userId, s.id⟩) ∧
      (findOpenSession st.sessions d.userId = none →
        (sessionStart st sockId pu pn now).state.sessions
          = st.sessions ++ [⟨st.nextSessionId, d.userId, now, none, none⟩]) ∧
      ((∀ v, openCount st.sessions v ≤ 1) →
        ∀ v, openCount (sessionStart st sockId pu pn now).state.sessions v ≤ 1) := by
  intro st sockId pu pn now d hparse
  refine ⟨?_, ?_, ?_⟩
  · intro s hfind
    simp only [sessionStart, hparse, hfind]
    exact ⟨by trivial, mapGet_mapSet_self _ _ _⟩
  · intro hfind
    simp only [sessionStart, hparse, hfind]
  · intro hall v
    cases hfind : findOpenSession st.sessions d.userId with
    | some s =>
        simp only [sessionStart, hparse, hfind]
        exact hall v
    | none =>
        simp only [sessionStart, hparse, hfind]
        unfold openCount
        rw [List.filter_append, List.length_append]
        by_cases hv : d.userId = v
        · subst hv
          have h0 : (st.sessions.filter
              (fun s => s.userId == d.userId && s.endedAt == none)) = [] := by
            rw [List.filter_eq_nil_iff]
            intro x hx
            exact (List.find?_eq_none.mp hfind) x hx
          rw [h0]
          simp
        · have hb : ((⟨st.nextSessionId, d.userId, now, none, none⟩ :
              SessionRow).userId == v) = false := by
            simpa using hv
          have h1 : openCount st.sessions v ≤ 1 := hall v
          unfold openCount at h1
          simp [List.filter_cons, hb]
          exact h1

/-- C4 (job queue modelled from the spec): along any sequence of worker
transitions a job's attempt counter never decreases and DONE/FAILED
are terminal; every single transition is an allowed forward one —
claim takes PENDING to PROCESSING incrementing attempts, success takes
PROCESSING to DONE, failure with attempts below 3 reverts PROCESSING
to PENDING, and failure with attempts at least 3 yields FAILED with
the last error recorded. -/
theorem c4_job_state_machine :
    (∀ j j' : InferenceJobRow, JobReaches j j' →
      j.attempts ≤ j'.attempts ∧
      ((j.status = .DONE ∨ j.status = .FAILED) → j' = j)) ∧
    (∀ (j j' : InferenceJobRow) (e : JobEvent), jobStep j e = some j' →
      (j.status = .PENDING ∧ j'.status = .PROCESSING
        ∧ j'.attempts = j.attempts + 1) ∨
      (j.status = .PROCESSING ∧ j'.status = .DONE ∧ j'.attempts = j.attempts) ∨
      (j.status = .PROCESSING ∧ j'.status = .PENDING ∧ j.attempts < 3
        ∧ j'.attempts = j.attempts) ∨
      (j.status = .PROCESSING ∧ j'.status = .FAILED ∧ 3 ≤ j.attempts
        ∧ j'.attempts = j.attempts ∧ j'.lastError ≠ none)) := by
  constructor
  · intro j j' hr
    unfold JobReaches at hr
    induction hr with
    | refl => exact ⟨Nat.le_refl _, fun _ => rfl⟩
    | tail _ hbc ih =>
        obtain ⟨e, he⟩ := hbc
        constructor
        · exact Nat.le_trans ih.1 (jobStep_attempts_le he)
        · intro ht
          rw [ih.2 ht] at he
          rw [jobStep_terminal e ht] at he
          exact Option.noConfusion he
  · intro j j' e h
    exact jobStep_shape h

/-- C9: for every presence-map state, getOnlineUsers is deduplicated by
userId — the listed userIds are pairwise distinct, a user with at
least one live connection is listed exactly once, and every listed
entry carries the userId, display name and experiment group of one of
that state's connections. -/
theorem c9_online_users_deduplicated :
    ∀ clients : List (String × ClientInfo),
      ((getOnlineUsers clients).map (fun x => x.userId)).Nodup ∧
      (∀ u : String, (∃ p ∈ clients, p.2.userId = u) →
        ((getOnlineUsers clients).filter (fun x => x.userId == u)).length = 1) ∧
      (∀ x ∈ getOnlineUsers clients, ∃ p ∈ clients,
        x.userId = p.2.userId ∧ x.nickname = p.2.nickname
          ∧ x.assignment = p.2.assignment) := by
  intro clients
  refine ⟨?_, ?_, ?_⟩
  · exact getOnlineUsers_fold_nodup clients [] (by simp)
  · intro u hu
    apply filter_userId_length_one (getOnlineUsers_fold_nodup clients [] (by simp))
    exact (getOnlineUsers_fold_mem clients [] u).mpr (Or.inr hu)
  · intro x hx
    unfold getOnlineUsers at hx
    rcases getOnlineUsers_fold_src clients [] x hx with h | ⟨p, hp, rfl⟩
    · simp at h
    · exact ⟨p, hp, rfl, rfl, rfl⟩

/-- C10: for every admitted send whose inline classifier call failed or
was non-ok (classifierResult none), the message is still persisted and
broadcast, with mood NEUTRAL and intensity 0 — the outage never makes
the send fail or drop. -/
theorem c10_classifier_outage_defaults_neutral :
    ∀ (st : ServerState) (sockId pu pt : String) (now : Nat) (msgId : String)
      (cd : ClientInfo) (d : MessageSendData),
      mapGet st.connectedClients sockId = some cd →
      messageSendParse pu pt = some d →
      d.userId = cd.userId →
      (rateAdmit st.rateLimits cd.userId now).1 = true →
      (messageSend st sockId pu pt now msgId none).state.messages
        = st.messages ++ [⟨msgId, cd.userId, cd.nickname, d.text, now, "NEUTRAL", 0⟩] ∧
      (messageSend st sockId pu pt now msgId none).emits
        = [(.broadcast,
            .messageNew ⟨msgId, cd.userId, cd.nickname, d.text, now, "NEUTRAL", 0⟩)] := by
  intro st sockId pu pt now msgId cd d h1 h2 h3 h4
  simp only [messageSend, h1, h2, h3, bne_self_eq_false, Bool.false_eq_true,
    if_false, h4, if_true]
  constructor <;> trivial

/-- C8, amended: the server getAssignment is a total pure function of
the identifier's character data, md5-hashed and reduced modulo 2; the
client getAssignment agrees with a 32-bit string hash reduced modulo 2
only when no local override is stored, and a stored override value is
returned as-is regardless of the identifier. -/
theorem c8_assignment_amended :
    (∀ u v : String, u.data = v.data → getAssignment u = getAssignment v) ∧
    (∀ u : String, getAssignment u = Assignment.CONTROL
      ∨ getAssignment u = Assignment.TREATMENT) ∧
    (∀ u : String, clientGetAssignment (some "CONTROL") u = Assignment.CONTROL) ∧
    (∀ u : String, clientGetAssignment (some "TREATMENT") u = Assignment.TREATMENT) ∧
    (∀ u v : String, u.data = v.data →
      clientGetAssignment none u = clientGetAssignment none v) := by
  refine ⟨?_, ?_, ?_, ?_, ?_⟩
  · intro u v h
    cases u; cases v
    simp only [String.data] at h
    rw [h]
  · intro u
    simp only [getAssignment]
    split
    · left; rfl
    · right; rfl
  · intro u
    simp [clientGetAssignment]
  · intro u
    simp [clientGetAssignment]
  · intro u v h
    cases u; cases v
    simp only [String.data] at h
    rw [h]

/-- C1 witness: at the concrete joined state, a second session:start
for the same user reuses open session 1, leaving the session table
unchanged and binding the new connection to session 1. -/
theorem c1_witness :
    sessionStartParse uidA "Alice" = some ⟨uidA, "Alice"⟩ ∧
    findOpenSession stJoined.sessions uidA = some ⟨1, uidA, 1000, none, none⟩ ∧
    ((sessionStart stJoined "sockB" uidA "Alice" 2000).state.sessions
        = stJoined.sessions ∧
      mapGet (sessionStart stJoined "sockB" uidA "Alice" 2000).state.connectedClients
          "sockB" = some ⟨uidA, "Alice", getAssignment uidA, 1⟩) :=
  ⟨by decide, by decide,
    (c1_at_most_one_open_session stJoined "sockB" uidA "Alice" 2000
      ⟨uidA, "Alice"⟩ (by decide)).1 ⟨1, uidA, 1000, none, none⟩ (by decide)⟩

/-- C4 witness: one claim transition from a fresh PENDING job, along
which the attempt counter does not decrease and the non-terminal start
status imposes nothing. -/
theorem c4_witness :
    ((⟨1, "msg1", JobStatus.PENDING, 0, none⟩ : InferenceJobRow).attempts
        ≤ (⟨1, "msg1", JobStatus.PROCESSING, 1, none⟩ : InferenceJobRow).attempts) ∧
    (((⟨1, "msg1", JobStatus.PENDING, 0, none⟩ : InferenceJobRow).status = .DONE ∨
      (⟨1, "msg1", JobStatus.PENDING, 0, none⟩ : InferenceJobRow).status = .FAILED) →
      (⟨1, "msg1", JobStatus.PROCESSING, 1, none⟩ : InferenceJobRow)
        = ⟨1, "msg1", JobStatus.PENDING, 0, none⟩) :=
  c4_job_state_machine.1 _ _
    (Relation.ReflTransGen.single ⟨JobEvent.claim, by decide⟩)

/-- C9 witness: with two live connections of the same user, the online
list carries that user exactly once. -/
theorem c9_witness :
    (∃ p ∈ demoClients, p.2.userId = uidA) ∧
    ((getOnlineUsers demoClients).filter (fun x => x.userId == uidA)).length = 1 :=
  ⟨⟨("sockA", ⟨uidA, "Alice", Assignment.TREATMENT, 1⟩), by decide, rfl⟩,
    (c9_online_users_deduplicated demoClients).2.1 uidA
      ⟨("sockA", ⟨uidA, "Alice", Assignment.TREATMENT, 1⟩), by decide, rfl⟩⟩

/-- C10 witness: at the concrete joined state with the classifier
unavailable, the send is persisted with neutral defaults. -/
theorem c10_witness :
    mapGet stJoined.connectedClients "sockA"
        = some ⟨uidA, "Alice", Assignment.TREATMENT, 1⟩ ∧
    messageSendParse uidA "hello" = some ⟨uidA, "hello"⟩ ∧
    (rateAdmit stJoined.rateLimits uidA 1500).1 = true ∧
    (messageSend stJoined "sockA" uidA "hello" 1500 "msg9" none).state.messages
      = stJoined.messages ++ [⟨"msg9", uidA, "Alice", "hello", 1500, "NEUTRAL", 0⟩] :=
  ⟨by decide, by decide, by decide,
    (c10_classifier_outage_defaults_neutral stJoined "sockA" uidA "hello" 1500 "msg9"
      ⟨uidA, "Alice", Assignment.TREATMENT, 1⟩ ⟨uidA, "hello"⟩
      (by decide) (by decide) rfl (by decide)).1⟩

/-- C8 witness: the amended statement applied at the concrete
identifier uidA. -/
theorem c8_witness :
    (uidA.data = uidA.data ∧ getAssignment uidA = getAssignment uidA) ∧
    clientGetAssignment (some "CONTROL") uidA = Assignment.CONTROL :=
  ⟨⟨rfl, c8_assignment_amended.1 uidA uidA rfl⟩, c8_assignment_amended.2.2.1 uidA⟩

/-- C8, counterexample: assignment is not a pure function of the
identifier's bytes across the two cited implementations.  With a stored
local override the client returns the override regardless of the
identifier; without it the client's 32-bit hash sends uidA to CONTROL
while the server's md5 hash sends the same identifier to TREATMENT. -/
theorem c8_assignment_counterexample :
    clientGetAssignment (some "TREATMENT") uidA = Assignment.TREATMENT ∧
    clientGetAssignment none uidA = Assignment.CONTROL ∧
    getAssignment uidA = Assignment.TREATMENT := by
  decide

end VNChat
